import Mathlib

/-!
Verification development for the nerdlog remote-transport subsystem.

This file gives a shallow embedding, in Lean 4, of:

* the transport-mode parser and printer (`ParseTransportMode`,
  `TransportMode.String`, `TransportMode.CustomShellCommand`,
  `DefaultSSHShellCommand`);
* the custom-command transport's connect procedure (`doConnect` of
  `ShellTransportCustomCmd`), including the line-scanner that waits for the
  `__CONNECTED__` marker on the child's stdout, modelled over the sequence of
  read chunks the child's stdout delivers;
* the `Close` procedure of a custom-command connection;
* the shell-like variable expansion used to build transport commands
  (this one is performed by the external interpreter `mvdan/sh`, which is not
  part of this repository; it is modelled from the spec).

Strings are embedded as `List Char`. Go string literals containing `\x7b`,
`\x7d` or `\x27` are written with those escapes because of source-encoding
constraints; they denote the curly braces and the single quote.
-/

namespace Nerdlog

/-- Strings of the Go source are embedded as lists of characters. -/
abbrev Str := List Char

/-! ## Transport mode (source: `transport_mode.go`) -/

/-- The three transport kinds; in Go `TransportModeKind` is a string type whose
only used values are `"ssh-lib"`, `"ssh-bin"` and `"custom"`. -/
inductive TransportModeKind where
  | sshLib
  | sshBin
  | custom
  deriving DecidableEq, Repr

/-- Embeds the Go constant `TransportModeKindSSHLib = "ssh-lib"`. -/
def sshLibStr : Str := ['s', 's', 'h', '-', 'l', 'i', 'b']

/-- Embeds the Go constant `TransportModeKindSSHBin = "ssh-bin"`. -/
def sshBinStr : Str := ['s', 's', 'h', '-', 'b', 'i', 'n']

/-- Embeds `fmt.Sprintf("%s:", TransportModeKindCustom)`, i.e. `"custom:"`. -/
def customPfx : Str := ['c', 'u', 's', 't', 'o', 'm', ':']

/-- Embeds the Go struct `TransportMode`; `customCommand` is the Go zero value
`""` (here `[]`) unless the kind is `custom`. -/
structure TransportMode where
  kind : TransportModeKind
  customCommand : Str
  deriving DecidableEq, Repr

/-- Embeds `NewTransportModeSSHLib`. -/
def NewTransportModeSSHLib : TransportMode := ⟨.sshLib, []⟩

/-- Embeds `NewTransportModeSSHBin`. -/
def NewTransportModeSSHBin : TransportMode := ⟨.sshBin, []⟩

/-- Embeds `NewTransportModeCustom`. -/
def NewTransportModeCustom (customCommand : Str) : TransportMode :=
  ⟨.custom, customCommand⟩

/-- Embeds `ParseTransportMode`.  The Go code tests, in this order:
`spec == TransportModeKindSSHLib`, `spec == TransportModeKindSSHBin`,
`strings.HasPrefix(spec, "custom:")` (and then takes
`strings.TrimPrefix(spec, "custom:")` as the custom command), and otherwise
returns the error `invalid transport mode ...`.  `HasPrefix s p` is embedded as
`s.take p.length = p`, and `TrimPrefix` as `s.drop p.length` (equivalent under
that test). -/
def ParseTransportMode (spec : Str) : Except Str TransportMode :=
  if spec = sshLibStr then .ok ⟨.sshLib, []⟩
  else if spec = sshBinStr then .ok ⟨.sshBin, []⟩
  else if spec.take customPfx.length = customPfx then
    .ok ⟨.custom, spec.drop customPfx.length⟩
  else .error ("invalid transport mode ".toList ++ spec)

/-- Embeds the Go constant `DefaultSSHShellCommand`, which is the string
`ssh -o 'BatchMode=yes' $\x7bNLPORT:+-p $\x7bNLPORT\x7d\x7d $\x7bNLUSER:+$\x7bNLUSER\x7d@\x7d$\x7bNLHOST\x7d /bin/sh`
(with `\x7b`, `\x7d`, `\x27` denoting the braces and the single quote). -/
def DefaultSSHShellCommand : Str :=
  "ssh -o \x27BatchMode=yes\x27 $\x7bNLPORT:+-p $\x7bNLPORT\x7d\x7d $\x7bNLUSER:+$\x7bNLUSER\x7d@\x7d$\x7bNLHOST\x7d /bin/sh".toList

/-- Embeds `TransportMode.CustomShellCommand`.  The Go `panic` branch is
unreachable here because the embedded kind has exactly the three used values. -/
def TransportMode.CustomShellCommand (m : TransportMode) : Str :=
  match m.kind with
  | .sshLib => []
  | .sshBin => DefaultSSHShellCommand
  | .custom => m.customCommand

/-- Embeds `TransportMode.String`. -/
def TransportMode.String (m : TransportMode) : Str :=
  match m.kind with
  | .sshLib => sshLibStr
  | .sshBin => sshBinStr
  | .custom => customPfx ++ m.customCommand

/-! ## Custom-command transport connect (source: `shell_transport_custom_cmd.go`)

The child process's stdout is modelled as the list of chunks returned by the
successive reads performed on it (`stdoutChunks`); its concatenation is the
whole byte stream up to EOF.  `bufio.Scanner` with the default `ScanLines`
split is modelled faithfully over those chunks: it reads a new chunk only when
its buffer holds no complete line, strips a final carriage return from each
token, and emits a final unterminated token at EOF.  Idealizations (marked):
the 64 KiB maximum token size of `bufio.Scanner` and zero-byte reads are not
modelled; `%q` quoting inside log/error message text is rendered as plain
quotes (message text is never structurally relevant to the claims except for
the stderr suffix, which the embedding preserves exactly). -/

/-- Embeds the constant `echoMarkerConnected = "__CONNECTED__"`. -/
def echoMarkerConnected : Str := "__CONNECTED__".toList

/-- The exact bytes written to the child's stdin by
`fmt.Fprintf(stdin, "echo %s\n", echoMarkerConnected)`. -/
def markerEchoLine : Str := "echo ".toList ++ echoMarkerConnected ++ ['\n']

/-- Embeds `dropCR` of `bufio.ScanLines`: strips one trailing `\r`. -/
def dropCR (l : Str) : Str :=
  if l.getLast? = some '\r' then l.dropLast else l

/-- Splits a byte list into its complete `\n`-terminated lines (without the
newline) and the trailing unterminated remainder. -/
def splitNL : Str → List Str × Str
  | [] => ([], [])
  | c :: rest =>
    let p := splitNL rest
    if c = '\n' then ([] :: p.1, p.2)
    else
      match p.1 with
      | [] => ([], c :: p.2)
      | l :: ls => ((c :: l) :: ls, p.2)

/-- Outcome of the goroutine that scans stdout for the connected marker. -/
inductive MarkerScan where
  | found (rest : List Str)
  | eofNoMarker
  deriving DecidableEq, Repr

/-- The marker-waiting loop of `doConnect` (the goroutine at lines 155–181
composed with `bufio.Scanner`): lines are scanned until one whose
`dropCR`-token equals `__CONNECTED__`; when the marker is found the chunks not
yet read (`rest`) are what `io.Copy(clientStdoutW, rawStdout)` will deliver —
the bytes already buffered by the scanner beyond the marker line are dropped.
At EOF, a nonempty unterminated final token is emitted and may itself be the
marker; otherwise the scan ends without the marker. -/
def waitMarker (carry : Str) (chunks : List Str) : MarkerScan :=
  match chunks with
  | [] =>
    if carry ≠ [] ∧ dropCR carry = echoMarkerConnected then .found []
    else .eofNoMarker
  | c :: cs =>
    let p := splitNL (carry ++ c)
    if echoMarkerConnected ∈ p.1.map dropCR then .found cs
    else waitMarker p.2 cs

/-- Embeds the connection object `ShellConnCustomCmd`; `stdoutData` is the
total byte stream readable from `Stdout()` after a successful connect. -/
structure ShellConnCustomCmd where
  stdoutData : Str
  deriving DecidableEq, Repr

/-- Embeds `ShellConnResult` (Go zero value: both fields nil). -/
structure ShellConnResult where
  conn : Option ShellConnCustomCmd := none
  err : Option Str := none
  deriving DecidableEq, Repr

/-- Embeds `ShellConnDebugInfo`. -/
structure ShellConnDebugInfo where
  message : Str
  deriving DecidableEq, Repr

/-- Embeds `ShellConnUpdate`: either a debug-info update or the terminal
result update. -/
structure ShellConnUpdate where
  debugInfo : Option ShellConnDebugInfo := none
  result : Option ShellConnResult := none
  deriving DecidableEq, Repr

/-- The environment of one `doConnect` execution: the results of the external
calls it performs, in program order.  `fieldsResult` is the value returned by
the external interpreter `shell.Fields` (mvdan/sh, not part of this
repository); the `...Err` fields are the error results of the corresponding
pipe/start/write calls (`none` = success); `stdoutChunks` are the successive
reads of the child's stdout until EOF; `readErr` is a non-EOF read error
reported after those chunks; `stderrText` is what `io.ReadAll(stderr)`
returns; `timedOut` tells whether `time.After(connectionTimeout)` fired before
the scanning goroutine reported on `connErrCh`. -/
structure ConnectEnv where
  shellCommand : Str := []
  fieldsResult : Except Str (List Str)
  stdinPipeErr : Option Str := none
  stdoutPipeErr : Option Str := none
  stderrPipeErr : Option Str := none
  startErr : Option Str := none
  stdinWriteErr : Option Str := none
  stdoutChunks : List Str := []
  readErr : Option Str := none
  stderrText : Str := []
  timedOut : Bool := false

/-- What one `doConnect` execution produces: the updates sent to `resCh` in
order, the returned `ShellConnResult` (always also carried by the last
update), whether `cmd.Start()` succeeded, and the writes made to the child's
stdin. -/
structure ConnectOutput where
  updates : List ShellConnUpdate
  res : ShellConnResult
  started : Bool
  stdinWrites : List Str
  deriving DecidableEq, Repr

/-- Embeds `errors.Annotatef(err, msg)`: message `msg ++ ": " ++ err`. -/
def annot (msg e : Str) : Str := msg ++ ": ".toList ++ e

/-- Embeds the `strings.Builder` loop that joins quoted fields with spaces. -/
def joinSp : List Str → Str
  | [] => []
  | [f] => f
  | f :: fs => f ++ [' '] ++ joinSp fs

/-- The debug message sent before the command is started. -/
def tryingMsg (cmdDebug : Str) : Str :=
  "Trying to connect using external command: \"".toList ++ cmdDebug ++ "\"".toList

/-- The debug message sent after the command has started. -/
def startedMsg : Str :=
  "Command started, writing \"echo __CONNECTED__\", waiting for it in stdout".toList

/-- The debug message sent when the marker is found. -/
def gotMarkerMsg : Str := "Got the marker, connected successfully".toList

/-- The timeout error of the `select` branch `<-time.After(connectionTimeout)`. -/
def timeoutMsg : Str := "timeout waiting for SSH connection marker".toList

/-- The error built when stdout reaches EOF before the marker: it embeds
`errors.Errorf("failed to connect using external command \"%s\": %s",
sshCmdDebug, string(stderrBytes))`. -/
def connectFailedMsg (cmdDebug stderrText : Str) : Str :=
  "failed to connect using external command \"".toList ++ cmdDebug ++
    "\": ".toList ++ stderrText

/-- The error of the `len(cmdFields) == 0` check. -/
def emptyCmdErr : Str := "command is empty".toList

/-- Embeds `doConnect` of `ShellTransportCustomCmd`, parameterised by the
quoting function `shellQuote` (defined elsewhere in the repository; it only
shapes debug/error message text).  Each branch mirrors one return path of the
Go function; the deferred `resCh <- ShellConnUpdate{Result: &res}` appears as
the final element of `updates` on every path. -/
def doConnect (shQuote : Str → Str) (env : ConnectEnv) : ConnectOutput :=
  match env.fieldsResult with
  | .error e =>
    let r : ShellConnResult :=
      { err := some (annot ("parsing shell command \"".toList ++
          env.shellCommand ++ "\"".toList) e) }
    ⟨[{ result := some r }], r, false, []⟩
  | .ok cmdFields =>
    if cmdFields = [] then
      let r : ShellConnResult := { err := some emptyCmdErr }
      ⟨[{ result := some r }], r, false, []⟩
    else
      let sshCmdDebug := joinSp (cmdFields.map shQuote)
      let u1 : ShellConnUpdate := { debugInfo := some ⟨tryingMsg sshCmdDebug⟩ }
      match env.stdinPipeErr with
      | some e =>
        let r : ShellConnResult := { err := some (annot "getting stdin pipe".toList e) }
        ⟨[u1, { result := some r }], r, false, []⟩
      | none =>
      match env.stdoutPipeErr with
      | some e =>
        let r : ShellConnResult := { err := some (annot "getting stdout pipe".toList e) }
        ⟨[u1, { result := some r }], r, false, []⟩
      | none =>
      match env.stderrPipeErr with
      | some e =>
        let r : ShellConnResult := { err := some (annot "getting stderr pipe".toList e) }
        ⟨[u1, { result := some r }], r, false, []⟩
      | none =>
      match env.startErr with
      | some e =>
        let r : ShellConnResult := { err := some (annot "starting shell".toList e) }
        ⟨[u1, { result := some r }], r, false, []⟩
      | none =>
      let u2 : ShellConnUpdate := { debugInfo := some ⟨startedMsg⟩ }
      match env.stdinWriteErr with
      | some e =>
        let r : ShellConnResult := { err := some (annot "writing connection marker".toList e) }
        ⟨[u1, u2, { result := some r }], r, true, []⟩
      | none =>
      if env.timedOut then
        let r : ShellConnResult := { err := some timeoutMsg }
        ⟨[u1, u2, { result := some r }], r, true, [markerEchoLine]⟩
      else
        match waitMarker [] env.stdoutChunks with
        | .found rest =>
          let u3 : ShellConnUpdate := { debugInfo := some ⟨gotMarkerMsg⟩ }
          let r : ShellConnResult := { conn := some ⟨rest.flatten⟩ }
          ⟨[u1, u2, u3, { result := some r }], r, true, [markerEchoLine]⟩
        | .eofNoMarker =>
          match env.readErr with
          | some e =>
            let r : ShellConnResult :=
              { err := some (annot "reading from stdout while waiting for connection marker".toList e) }
            ⟨[u1, u2, { result := some r }], r, true, [markerEchoLine]⟩
          | none =>
            let r : ShellConnResult :=
              { err := some (connectFailedMsg sshCmdDebug env.stderrText) }
            ⟨[u1, u2, { result := some r }], r, true, [markerEchoLine]⟩

/-- All the setup calls before the marker wait succeeded: the command parsed
to a nonempty field list, the three pipes and `cmd.Start()` succeeded, and the
marker echo line was written to stdin without error. -/
def setupOk (env : ConnectEnv) : Bool :=
  (match env.fieldsResult with
   | .ok fs => !fs.isEmpty
   | .error _ => false) &&
  env.stdinPipeErr.isNone && env.stdoutPipeErr.isNone &&
  env.stderrPipeErr.isNone && env.startErr.isNone && env.stdinWriteErr.isNone

/-- Embeds `ShellConnCustomCmd.Close` as the sequence of effects it performs. -/
inductive CloseAction where
  | closeStdin
  | cancelCtx
  deriving DecidableEq, Repr

/-- Embeds `ShellConnCustomCmd.Close`: it calls `s.stdin.Close()` and then
`s.ctxCancel()`, unconditionally, in that order. -/
def ShellConnCustomCmd.Close (_s : ShellConnCustomCmd) : List CloseAction :=
  [.closeStdin, .cancelCtx]

/-! ## Shell-like variable expansion (external interpreter, modelled from spec)

The command string of the custom transport is interpreted by
`github.com/mvdan/sh` (`shell.Fields`), which is not part of this repository.
The spec describes its contract; the definitions below are modelled from it.
The variable lookup function passed to it, however, is source code of this
repository (`doConnect`, lines 81–87) and is embedded in `lookupEnv`. -/

/-- Modelled from the spec: one part of a shell word as understood by the
external interpreter — literal text, `$\x7bX\x7d`, `$\x7bX:-default\x7d`, or
`$\x7bX:+alternative\x7d` (defaults/alternatives may nest further parts).
The spec states that no other shell constructs are expanded (no command
substitution, no control flow), so the syntax has exactly these forms. -/
inductive WordPart where
  | lit (s : Str)
  | var (x : Str)
  | varDefault (x : Str) (d : List WordPart)
  | varAlt (x : Str) (a : List WordPart)

mutual

/-- Modelled from the spec: expansion of one word part under environment `ρ`:
`$\x7bX:-d\x7d` yields `d` iff `X` is unset or empty (the environment function
cannot distinguish the two: it returns the empty string for both) and the
value of `X` otherwise; `$\x7bX:+a\x7d` yields `a` iff `X` is set and
non-empty and empty otherwise; `$\x7bX\x7d` yields the value or empty. -/
def expandPart (ρ : Str → Str) : WordPart → Str
  | .lit s => s
  | .var x => ρ x
  | .varDefault x d => if ρ x = [] then expandWord ρ d else ρ x
  | .varAlt x a => if ρ x = [] then [] else expandWord ρ a

/-- Modelled from the spec: a word expands to the concatenation of its parts'
expansions. -/
def expandWord (ρ : Str → Str) : List WordPart → Str
  | [] => []
  | p :: ps => expandPart ρ p ++ expandWord ρ ps

end

/-- Whitespace for field splitting. -/
def isWS (c : Char) : Bool := c = ' ' || c = '\t' || c = '\n'

/-- Accumulating helper for `splitWS`; `cur` is the current field reversed. -/
def splitWSAux (cur : Str) : Str → List Str
  | [] => if cur = [] then [] else [cur.reverse]
  | c :: rest =>
    if isWS c then
      if cur = [] then splitWSAux [] rest
      else cur.reverse :: splitWSAux [] rest
    else splitWSAux (c :: cur) rest

/-- Splits a byte list on whitespace, dropping empty fields. -/
def splitWS (s : Str) : List Str := splitWSAux [] s

/-- Modelled from the spec: field splitting of `shell.Fields` — each word of
the command is expanded and split on whitespace, empty expansions yielding no
field at all. -/
def fieldsOf (ρ : Str → Str) (ws : List (List WordPart)) : List Str :=
  (ws.map (fun w => splitWS (expandWord ρ w))).flatten

/-- Embeds the variable-lookup closure passed by `doConnect` to
`shell.Fields` (lines 81–87): a name present in `EnvOverride` resolves to the
override value — even when that value is the empty string, which therefore
hides a nonempty process-environment value — and otherwise to
`os.Getenv`.  The Go map is embedded as an association list. -/
def lookupEnv (override : List (Str × Str)) (procEnv : Str → Str) (x : Str) : Str :=
  match override.lookup x with
  | some v => v
  | none => procEnv x

/-! ## Concrete environments used by counterexamples and witnesses -/

/-- Stdout delivers the marker line and the byte `X` in one single read:
`bufio.Scanner` buffers the whole chunk, so the `X` never reaches
`io.Copy(clientStdoutW, rawStdout)`. -/
def envC1 : ConnectEnv :=
  { fieldsResult := .ok [['s', 'h']],
    stdoutChunks := ["__CONNECTED__\nX".toList] }

/-- Stdout delivers the marker line and the payload in separate reads. -/
def envWit1 : ConnectEnv :=
  { fieldsResult := .ok [['s', 'h']],
    stdoutChunks := ["__CONNECTED__\n".toList, "DATA".toList] }

/-- The connect wait times out before the marker is seen. -/
def envT : ConnectEnv :=
  { fieldsResult := .ok [['s', 'h']], timedOut := true }

/-- Stdout closes (EOF) before the marker; stderr holds the ssh error text. -/
def envE : ConnectEnv :=
  { fieldsResult := .ok [['s', 'h']],
    stdoutChunks := ["oops\n".toList],
    stderrText := "auth failed".toList }

/-- The external interpreter reports a parse error. -/
def env8 : ConnectEnv :=
  { shellCommand := "((".toList, fieldsResult := .error "bad syntax".toList }

/-- The command expanded to zero fields. -/
def env9 : ConnectEnv := { fieldsResult := .ok [] }

/-! ## Theorems: transport-mode claims -/

/-- C3: `ParseTransportMode` accepts exactly the strings `ssh-lib`, `ssh-bin`,
and any string with prefix `custom:` (the remainder becoming the custom
command); for every other input string it returns an error and no
`TransportMode`. -/
theorem parseTransportMode_accepts_exactly :
    ParseTransportMode sshLibStr = .ok ⟨.sshLib, []⟩ ∧
    ParseTransportMode sshBinStr = .ok ⟨.sshBin, []⟩ ∧
    (∀ c : Str, ParseTransportMode (customPfx ++ c) = .ok ⟨.custom, c⟩) ∧
    (∀ s m, ParseTransportMode s = .ok m →
      s = sshLibStr ∨ s = sshBinStr ∨ s.take customPfx.length = customPfx) ∧
    (∀ s : Str, s ≠ sshLibStr → s ≠ sshBinStr →
      s.take customPfx.length ≠ customPfx →
      ∃ e, ParseTransportMode s = .error e) := by
  refine ⟨rfl, rfl, ?_, ?_, ?_⟩
  · intro c
    have h1 : customPfx ++ c ≠ sshLibStr := by
      intro h
      have := congrArg (List.take 1) h
      simp [customPfx, sshLibStr] at this
    have h2 : customPfx ++ c ≠ sshBinStr := by
      intro h
      have := congrArg (List.take 1) h
      simp [customPfx, sshBinStr] at this
    have h3 : (customPfx ++ c).take customPfx.length = customPfx :=
      List.take_left customPfx c
    simp only [ParseTransportMode, if_neg h1, if_neg h2, if_pos h3,
      List.drop_left]
  · intro s m h
    unfold ParseTransportMode at h
    split at h
    · left; assumption
    · split at h
      · right; left; assumption
      · split at h
        · right; right; assumption
        · exact absurd h (by simp)
  · intro s h1 h2 h3
    exact ⟨"invalid transport mode ".toList ++ s,
      by simp only [ParseTransportMode, if_neg h1, if_neg h2, if_neg h3]⟩

/-- C3 witness: the rejection clause of `parseTransportMode_accepts_exactly`
instantiated at the concrete invalid spec `bogus`, and the custom clause at the
concrete command `x`. -/
theorem parseTransportMode_accepts_exactly_witness :
    (∃ e, ParseTransportMode ['b', 'o', 'g', 'u', 's'] = .error e) ∧
    ParseTransportMode (customPfx ++ ['x']) = .ok ⟨.custom, ['x']⟩ := by
  refine ⟨?_, parseTransportMode_accepts_exactly.2.2.1 ['x']⟩
  exact parseTransportMode_accepts_exactly.2.2.2.2
    ['b', 'o', 'g', 'u', 's'] (by decide) (by decide) (by decide)

/-- C4: `CustomShellCommand` returns exactly the default ssh command string for
kind `ssh-bin` (spelled out here character by character, by ASCII code), the
empty string for kind `ssh-lib`, and the stored custom command for kind
`custom`. -/
theorem customShellCommand_values :
    (∀ cc : Str, TransportMode.CustomShellCommand ⟨.sshBin, cc⟩ =
      List.map Char.ofNat
        [115, 115, 104, 32, 45, 111, 32, 39, 66, 97, 116, 99, 104, 77, 111,
         100, 101, 61, 121, 101, 115, 39, 32, 36, 123, 78, 76, 80, 79, 82, 84,
         58, 43, 45, 112, 32, 36, 123, 78, 76, 80, 79, 82, 84, 125, 125, 32,
         36, 123, 78, 76, 85, 83, 69, 82, 58, 43, 36, 123, 78, 76, 85, 83, 69,
         82, 125, 64, 125, 36, 123, 78, 76, 72, 79, 83, 84, 125, 32, 47, 98,
         105, 110, 47, 115, 104]) ∧
    (∀ cc : Str, TransportMode.CustomShellCommand ⟨.sshLib, cc⟩ = []) ∧
    (∀ c : Str, TransportMode.CustomShellCommand ⟨.custom, c⟩ = c) := by
  refine ⟨fun cc => ?_, fun cc => rfl, fun c => rfl⟩
  show DefaultSSHShellCommand = _
  decide

/-- Auxiliary fact shared by the round-trip theorem: re-parsing
`customPfx ++ c` yields the custom mode with command `c`. -/
theorem parseTransportMode_roundtrip_aux (c : Str) :
    ParseTransportMode (customPfx ++ c) = .ok ⟨.custom, c⟩ := by
  have h1 : customPfx ++ c ≠ sshLibStr := by
    intro h
    have := congrArg (List.take 1) h
    simp [customPfx, sshLibStr] at this
  have h2 : customPfx ++ c ≠ sshBinStr := by
    intro h
    have := congrArg (List.take 1) h
    simp [customPfx, sshBinStr] at this
  have h3 : (customPfx ++ c).take customPfx.length = customPfx :=
    List.take_left customPfx c
  simp only [ParseTransportMode, if_neg h1, if_neg h2, if_pos h3,
    List.drop_left]

/-- C7: parse/print round trip: every accepted spec string is reproduced by
`String()`, and every `TransportMode` built by the three constructors is
re-parsed from its `String()` to an equal `TransportMode`. -/
theorem transportMode_roundtrip :
    (∀ s m, ParseTransportMode s = .ok m → m.String = s) ∧
    ParseTransportMode NewTransportModeSSHLib.String = .ok NewTransportModeSSHLib ∧
    ParseTransportMode NewTransportModeSSHBin.String = .ok NewTransportModeSSHBin ∧
    (∀ c : Str, ParseTransportMode (NewTransportModeCustom c).String =
      .ok (NewTransportModeCustom c)) := by
  refine ⟨?_, rfl, rfl, fun c => ?_⟩
  · intro s m h
    unfold ParseTransportMode at h
    split at h
    · cases h; subst_vars; rfl
    · split at h
      · cases h; subst_vars; rfl
      · split at h
        · cases h
          rename_i hpfx
          show customPfx ++ s.drop customPfx.length = s
          conv_rhs => rw [← List.take_append_drop customPfx.length s]
          rw [hpfx]
        · exact absurd h (by simp)
  · show ParseTransportMode (customPfx ++ c) = _
    exact parseTransportMode_roundtrip_aux c

/-- C7 witness: the first clause of `transportMode_roundtrip` applied at the
concrete accepted spec `custom:x`. -/
theorem transportMode_roundtrip_witness :
    TransportMode.String ⟨.custom, ['x']⟩ = customPfx ++ ['x'] :=
  transportMode_roundtrip.1 (customPfx ++ ['x']) ⟨.custom, ['x']⟩
    (parseTransportMode_roundtrip_aux ['x'])

/-! ## Theorems: connect-procedure claims -/

/-- When the marker scan succeeds, the chunks it leaves for raw passthrough
are a tail of the chunk sequence: the delivered bytes start at a chunk
boundary, at or after the chunk holding the marker line. -/
theorem waitMarker_found_suffix (carry : Str) (chunks rest : List Str)
    (h : waitMarker carry chunks = .found rest) :
    ∃ k, rest = chunks.drop k := by
  induction chunks generalizing carry with
  | nil =>
    unfold waitMarker at h
    split at h
    · cases h; exact ⟨0, rfl⟩
    · cases h
  | cons c cs ih =>
    simp only [waitMarker] at h
    split at h
    · cases h; exact ⟨1, rfl⟩
    · obtain ⟨k, hk⟩ := ih _ h
      exact ⟨k + 1, by simpa using hk⟩

/-- C1 counterexample: when the child writes the marker line and a following
byte `X` in one single read, the connection succeeds but `Conn.Stdout()`
delivers nothing: the byte `X`, which stands immediately after the marker
line in the process stdout, is lost, refuting raw byte passthrough with no
byte lost. -/
theorem doConnect_raw_passthrough_cex :
    (doConnect (fun s => s) envC1).res.conn = some ⟨[]⟩ ∧
    envC1.stdoutChunks.flatten = echoMarkerConnected ++ ['\n', 'X'] ∧
    (['X'] : Str) ≠ ([] : Str) := by
  refine ⟨by decide, by decide, by decide⟩

/-- C1 amended: whenever `Connect` on the custom-command transport produces a
`Conn`, the exact line `echo __CONNECTED__` plus newline was written to the
process stdin after it started; stdout was read line by line and every line
preceding the first marker line was consumed without being delivered; and the
bytes delivered through `Conn.Stdout()` are exactly the reads of the process
stdout that follow the read in which the marker line was scanned (a
chunk-boundary tail of the stream) — bytes of the same read that follow the
marker line are discarded with the scanner's buffer, not delivered. -/
theorem doConnect_stdout_chunk_suffix (q : Str → Str) (env : ConnectEnv)
    (conn : ShellConnCustomCmd)
    (h : (doConnect q env).res.conn = some conn) :
    (doConnect q env).stdinWrites = [markerEchoLine] ∧
    (doConnect q env).started = true ∧
    ∃ k, waitMarker [] env.stdoutChunks = .found (env.stdoutChunks.drop k) ∧
      conn.stdoutData = (env.stdoutChunks.drop k).flatten := by
  obtain ⟨d⟩ := conn
  obtain ⟨sc, fr, p1, p2, p3, p4, p5, ch, re, st, tmo⟩ := env
  rcases fr with e | fs
  · simp [doConnect] at h
  · by_cases hfs : fs = []
    · simp [doConnect, hfs] at h
    · rcases p1 with _ | e1
      · rcases p2 with _ | e2
        · rcases p3 with _ | e3
          · rcases p4 with _ | e4
            · rcases p5 with _ | e5
              · cases tmo
                · rcases hw : waitMarker [] ch with rest | _
                  · obtain ⟨k, hk⟩ := waitMarker_found_suffix [] ch rest hw
                    simp only [doConnect, hfs, hw] at h ⊢
                    refine ⟨by simp [hfs], by simp [hfs], k, ?_, ?_⟩
                    · rw [hk]
                    · simp [hfs] at h
                      rw [← hk, ← h]
                  · rcases re with _ | e6 <;> simp [doConnect, hfs, hw] at h
                · simp [doConnect, hfs] at h
              · simp [doConnect, hfs] at h
            · simp [doConnect, hfs] at h
          · simp [doConnect, hfs] at h
        · simp [doConnect, hfs] at h
      · simp [doConnect, hfs] at h

/-- C1 amended witness: `doConnect_stdout_chunk_suffix` applied to the
concrete environment `envWit1`, whose stdout delivers `__CONNECTED__\n` and
then `DATA` in separate reads; the connection delivers exactly `DATA`. -/
theorem doConnect_stdout_chunk_suffix_witness :
    (doConnect (fun s => s) envWit1).stdinWrites = [markerEchoLine] ∧
    (doConnect (fun s => s) envWit1).started = true ∧
    ∃ k, waitMarker [] envWit1.stdoutChunks = .found (envWit1.stdoutChunks.drop k) ∧
      ShellConnCustomCmd.stdoutData ⟨"DATA".toList⟩ = (envWit1.stdoutChunks.drop k).flatten :=
  doConnect_stdout_chunk_suffix (fun s => s) envWit1 ⟨"DATA".toList⟩ (by decide)

/-- C2: while the marker has not been seen, if the bounded connect wait
elapses first, `Connect` fails with the timeout error; if stdout closes (EOF)
first, it fails with an error that carries the accumulated stderr text of the
child process as its suffix; in both cases no `Conn` is produced. -/
theorem doConnect_timeout_eof (q : Str → Str) (env : ConnectEnv)
    (hsetup : setupOk env = true) :
    (env.timedOut = true →
      (doConnect q env).res.err = some timeoutMsg ∧
      (doConnect q env).res.conn = none) ∧
    (env.timedOut = false → waitMarker [] env.stdoutChunks = .eofNoMarker →
      env.readErr = none →
      ∃ p, (doConnect q env).res.err = some (p ++ env.stderrText) ∧
        (doConnect q env).res.conn = none) := by
  obtain ⟨sc, fr, p1, p2, p3, p4, p5, ch, re, st, tmo⟩ := env
  rcases fr with e | fs
  · simp [setupOk] at hsetup
  · simp only [setupOk, Bool.and_eq_true, Bool.not_eq_true', List.isEmpty_eq_false,
      Option.isNone_iff_eq_none] at hsetup
    obtain ⟨⟨⟨⟨⟨hfs, h1⟩, h2⟩, h3⟩, h4⟩, h5⟩ := hsetup
    subst h1 h2 h3 h4 h5
    constructor
    · intro ht
      subst ht
      exact ⟨by simp [doConnect, hfs], by simp [doConnect, hfs]⟩
    · intro ht hw hre
      subst ht
      subst hre
      refine ⟨"failed to connect using external command \"".toList ++
        joinSp (fs.map q) ++ "\": ".toList, ?_, ?_⟩
      · simp [doConnect, hfs, hw, connectFailedMsg, List.append_assoc]
      · simp [doConnect, hfs, hw]

/-- C2 witness: `doConnect_timeout_eof` applied to the concrete timed-out
environment `envT` and to the concrete EOF-before-marker environment `envE`
(whose stderr text is `auth failed`). -/
theorem doConnect_timeout_eof_witness :
    ((doConnect (fun s => s) envT).res.err = some timeoutMsg ∧
      (doConnect (fun s => s) envT).res.conn = none) ∧
    (∃ p, (doConnect (fun s => s) envE).res.err = some (p ++ envE.stderrText) ∧
      (doConnect (fun s => s) envE).res.conn = none) :=
  ⟨(doConnect_timeout_eof (fun s => s) envT (by decide)).1 rfl,
   (doConnect_timeout_eof (fun s => s) envE (by decide)).2 rfl (by decide) rfl⟩

/-- C8: every `doConnect` execution sends a nonempty update sequence whose
last element — and only that element — carries a non-nil `Result`; in that
result exactly one of `Conn` and `Err` is non-nil; all preceding updates carry
only debug info. -/
theorem doConnect_single_result (q : Str → Str) (env : ConnectEnv) :
    (doConnect q env).updates ≠ [] ∧
    (doConnect q env).updates.getLast? =
      some { debugInfo := none, result := some (doConnect q env).res } ∧
    (∀ u ∈ (doConnect q env).updates.dropLast,
      u.result = none ∧ u.debugInfo.isSome = true) ∧
    ((doConnect q env).res.conn.isSome = true ∧ (doConnect q env).res.err = none ∨
      (doConnect q env).res.conn = none ∧ (doConnect q env).res.err.isSome = true) := by
  obtain ⟨sc, fr, p1, p2, p3, p4, p5, ch, re, st, tmo⟩ := env
  rcases fr with e | fs
  · simp [doConnect]
  · by_cases hfs : fs = []
    · simp [doConnect, hfs]
    · rcases p1 with _ | e1
      · rcases p2 with _ | e2
        · rcases p3 with _ | e3
          · rcases p4 with _ | e4
            · rcases p5 with _ | e5
              · cases tmo
                · rcases hw : waitMarker [] ch with rest | _
                  · simp [doConnect, hfs, hw]
                  · rcases re with _ | e6 <;> simp [doConnect, hfs, hw]
                · simp [doConnect, hfs]
              · simp [doConnect, hfs]
            · simp [doConnect, hfs]
          · simp [doConnect, hfs]
        · simp [doConnect, hfs]
      · simp [doConnect, hfs]

/-- C8 witness: `doConnect_single_result` applied to the concrete environment
`env8`, in which the external interpreter reports a parse error. -/
theorem doConnect_single_result_witness :
    (doConnect (fun s => s) env8).updates.getLast? =
      some { debugInfo := none, result := some (doConnect (fun s => s) env8).res } :=
  (doConnect_single_result (fun s => s) env8).2.1

/-- C9: if shell expansion of the custom command yields zero fields,
`Connect` fails with the `command is empty` error before any child process is
started; the transport mode parsed from the bare string `custom:` indeed has
the empty custom command, whose expansion yields zero fields, as does a
command expanding entirely to empty. -/
theorem doConnect_empty_command (q : Str → Str) (env : ConnectEnv)
    (h : env.fieldsResult = .ok []) :
    ((doConnect q env).res.err = some emptyCmdErr ∧
      (doConnect q env).res.conn = none ∧
      (doConnect q env).started = false) ∧
    ParseTransportMode customPfx = .ok ⟨.custom, []⟩ ∧
    TransportMode.CustomShellCommand ⟨.custom, []⟩ = [] ∧
    (∀ ρ : Str → Str, fieldsOf ρ [] = []) ∧
    (∀ (ρ : Str → Str) (x : Str), ρ x = [] → fieldsOf ρ [[WordPart.var x]] = []) := by
  refine ⟨?_, ?_, rfl, fun ρ => rfl, fun ρ x hx => ?_⟩
  · obtain ⟨sc, fr, p1, p2, p3, p4, p5, ch, re, st, tmo⟩ := env
    simp only [ConnectEnv.fieldsResult] at h
    subst h
    exact ⟨by simp [doConnect], by simp [doConnect], by simp [doConnect]⟩
  · have := parseTransportMode_roundtrip_aux []
    simpa using this
  · simp [fieldsOf, expandWord, expandPart, hx, splitWS, splitWSAux]

/-- C9 witness: `doConnect_empty_command` applied to the concrete environment
`env9`, whose command expanded to zero fields. -/
theorem doConnect_empty_command_witness :
    (doConnect (fun s => s) env9).res.err = some emptyCmdErr ∧
    (doConnect (fun s => s) env9).res.conn = none ∧
    (doConnect (fun s => s) env9).started = false :=
  (doConnect_empty_command (fun s => s) env9 rfl).1

/-- C6: `Close` on a custom-command connection performs exactly two effects,
closing the connection's stdin first and cancelling the process context
(killing the child process) only afterwards, on its only execution path. -/
theorem close_order (s : ShellConnCustomCmd) :
    s.Close = [CloseAction.closeStdin, CloseAction.cancelCtx] ∧
    s.Close.head? = some CloseAction.closeStdin ∧
    s.Close.getLast? = some CloseAction.cancelCtx :=
  ⟨rfl, rfl, rfl⟩

/-- C5: in the expansion used for the custom command, `$\x7bX:-d\x7d` yields
`d` iff `X` is unset or empty and the value of `X` otherwise; `$\x7bX:+a\x7d`
yields `a` iff `X` is set and non-empty and empty otherwise; `$\x7bX\x7d`
yields the value or empty; the syntax of `WordPart` offers no command
substitution or control flow; and lookup gives `EnvOverride` precedence over
the process environment, an empty-string override making the variable behave
as unset/empty even when the process environment holds a nonempty value. -/
theorem expansion_semantics (override : List (Str × Str)) (procEnv : Str → Str)
    (x : Str) (d a : List WordPart) :
    (lookupEnv override procEnv x = [] →
      expandPart (lookupEnv override procEnv) (.varDefault x d) =
        expandWord (lookupEnv override procEnv) d) ∧
    (lookupEnv override procEnv x ≠ [] →
      expandPart (lookupEnv override procEnv) (.varDefault x d) =
        lookupEnv override procEnv x) ∧
    (lookupEnv override procEnv x = [] →
      expandPart (lookupEnv override procEnv) (.varAlt x a) = []) ∧
    (lookupEnv override procEnv x ≠ [] →
      expandPart (lookupEnv override procEnv) (.varAlt x a) =
        expandWord (lookupEnv override procEnv) a) ∧
    expandPart (lookupEnv override procEnv) (.var x) = lookupEnv override procEnv x ∧
    (∀ v, override.lookup x = some v → lookupEnv override procEnv x = v) ∧
    (override.lookup x = none → lookupEnv override procEnv x = procEnv x) ∧
    (override.lookup x = some [] →
      expandPart (lookupEnv override procEnv) (.varDefault x d) =
        expandWord (lookupEnv override procEnv) d ∧
      expandPart (lookupEnv override procEnv) (.varAlt x a) = []) := by
  refine ⟨fun h => by simp [expandPart, h], fun h => by simp [expandPart, h],
    fun h => by simp [expandPart, h], fun h => by simp [expandPart, h],
    rfl, fun v hv => by simp [lookupEnv, hv], fun hv => by simp [lookupEnv, hv],
    fun hv => ?_⟩
  have h : lookupEnv override procEnv x = [] := by simp [lookupEnv, hv]
  exact ⟨by simp [expandPart, h], by simp [expandPart, h]⟩

/-- C5 witness: `expansion_semantics` applied to the concrete override
`FOO = empty`, process environment `FOO = bar`, default `def` and
alternative `alt`: the empty override hides the process value, so the
default is taken and the alternative suppressed. -/
theorem expansion_semantics_witness :
    expandPart (lookupEnv [(['F', 'O', 'O'], [])] (fun _ => ['b', 'a', 'r']))
      (.varDefault ['F', 'O', 'O'] [.lit ['d', 'e', 'f']]) = ['d', 'e', 'f'] ∧
    expandPart (lookupEnv [(['F', 'O', 'O'], [])] (fun _ => ['b', 'a', 'r']))
      (.varAlt ['F', 'O', 'O'] [.lit ['a', 'l', 't']]) = [] := by
  have h := (expansion_semantics [(['F', 'O', 'O'], [])] (fun _ => ['b', 'a', 'r'])
    ['F', 'O', 'O'] [.lit ['d', 'e', 'f']] [.lit ['a', 'l', 't']]).2.2.2.2.2.2.2
    (by decide)
  exact ⟨by rw [h.1]; rfl, h.2⟩

end Nerdlog
